import Mathlib

/-
Verification of the MotorDriver track-output driver (MotorDriver.cpp):
power control, DC signal generation, current sensing, calibration and
the overload-protection state machine, shallowly embedded in Lean.

Hardware/platform effects (GPIO, PWM, ADC, diagnostics) are modelled as
inputs and an emitted event trace; the constants and member declarations
that live in the missing header (MotorDriver.h) are modelled as
configuration parameters.
-/

namespace MotorDriver

/-- Modelled from the spec: the power-state enumeration declared in the
missing header MotorDriver.h; the spec and MotorDriver.cpp use exactly
the states OFF, ON and OVERLOAD. -/
inductive POWERMODE where
  | OFF
  | ON
  | OVERLOAD
deriving DecidableEq, Repr

/-- A digital pin level. -/
inductive Level where
  | LOW
  | HIGH
deriving DecidableEq, Repr

/-- Observable effects issued to the hardware backends:
a write of the power-enable pin, a PWM duty write (analogWrite on the
power pin), a direction/signal-pin write (setSignal, with the DCC
direction bit as a 0/1 value), and the programming-track reset-clear
request (DCCWaveform::progTrack.clearResets). -/
inductive Event where
  | powerPin (lvl : Level)
  | pwm (duty : Nat)
  | signal (dir : Nat)
  | progReset
deriving DecidableEq, Repr

/-- Configuration of one channel, fixed after construction.
Pins are modelled only by whether they are configured (UNUSED_PIN or
not); the numeric waits are the POWER_SAMPLE_* constants of the missing
header, modelled as parameters. -/
structure MDConfig where
  hasCurrentPin : Bool
  hasFaultPin : Bool
  senseOffset : Int
  invertPower : Bool
  commonFaultPin : Bool
  rawCurrentTripValue : Int
  progTripValue : Int
  sampleOffWait : Nat
  sampleOnWait : Nat
  overloadWaitFloor : Nat
  isProgTrack : Bool
deriving DecidableEq, Repr

/-- Mutable per-channel state touched by the functions under study. -/
structure MDState where
  powerMode : POWERMODE
  sampleDelay : Nat
  power_good_counter : Nat
  power_sample_overload_wait : Nat
  lastCurrent : Int
  curSpeedCode : Nat
  DCinuse : Bool
deriving DecidableEq, Repr

/-- MotorDriver::raw2mA: `(int32_t)raw * senseFactorInternal / senseScale`,
on the nonnegative in-range values the claims quantify over (where the
32-bit products do not overflow, int32 arithmetic agrees with Nat). -/
def raw2mA (senseScale senseFactorInternal raw : Nat) : Nat :=
  raw * senseFactorInternal / senseScale

/-- MotorDriver::mA2raw: `(int32_t)mA * senseScale / senseFactorInternal`. -/
def mA2raw (senseScale senseFactorInternal mA : Nat) : Nat :=
  mA * senseScale / senseFactorInternal

/-- The constructor's computation of rawCurrentTripValue:
`rawCurrentTripValue = mA2raw(trip_milliamps)`, then clamped to
`ADCee::ADCmax() - senseOffset` when `rawCurrentTripValue + senseOffset`
exceeds `ADCee::ADCmax()`. -/
def constructedTripValue (senseScale senseFactorInternal : Nat)
    (senseOffset adcMax : Int) (trip_milliamps : Nat) : Int :=
  let rawCurrentTripValue : Int := (mA2raw senseScale senseFactorInternal trip_milliamps : Nat)
  if rawCurrentTripValue + senseOffset > adcMax then adcMax - senseOffset
  else rawCurrentTripValue

/-- MotorDriver::getCurrentRaw. `adc` is the value returned by
`ADCee::read(currentPin)`, and `faultLow` is `isLOW(fastFaultPin)`.
The powerMode is passed explicitly since the caller's state holds it. -/
def getCurrentRaw (cfg : MDConfig) (powerMode : POWERMODE)
    (adc : Int) (faultLow : Bool) : Int :=
  if cfg.hasCurrentPin = false then 0
  else
    let current := adc - cfg.senseOffset
    let current := if current < 0 then 0 - current else current
    if cfg.hasFaultPin ∧ faultLow ∧ powerMode = POWERMODE.ON then
      (if current = 0 then -1 else -current)
    else current

/-- MotorDriver::setDCSignal: records the speed code, marks DC in use,
computes the PWM ratio from the 7-bit speed field (with polarity
inversion) and writes PWM and the direction signal. Bytes are modelled
as Nat; `speedcode & 0x7F` is `% 256 % 128 = % 128` and the direction
bit `speedcode & 0x80` is `/ 128 % 2`. -/
def setDCSignal (cfg : MDConfig) (s : MDState) (speedcode : Nat) :
    MDState × List Event :=
  let s := { s with curSpeedCode := speedcode, DCinuse := true }
  let tSpeed := speedcode % 128
  let tDir := speedcode / 128 % 2
  let pwmratio := if tSpeed ≤ 1 then 0
                  else if tSpeed ≥ 127 then 255
                  else 2 * tSpeed
  let pwmratio := if cfg.invertPower then 255 - pwmratio else pwmratio
  (s, [Event.pwm pwmratio, Event.signal tDir])

/-- MotorDriver::setPower. Turning ON writes the power pin active
(honouring invertPower) and, when DC is in use, re-applies the stored
speed code; any other mode writes the power pin inactive and, when DC is
in use, issues a stop (speed code 128) while restoring curSpeedCode. -/
def setPower (cfg : MDConfig) (s : MDState) (mode : POWERMODE) :
    MDState × List Event :=
  if mode = POWERMODE.ON then
    let e1 := Event.powerPin (if cfg.invertPower then Level.LOW else Level.HIGH)
    let p := if s.DCinuse then setDCSignal cfg s s.curSpeedCode else (s, [])
    let evs := if cfg.isProgTrack then p.2 ++ [Event.progReset] else p.2
    ({ p.1 with powerMode := mode }, e1 :: evs)
  else
    let e1 := Event.powerPin (if cfg.invertPower then Level.HIGH else Level.LOW)
    let p := if s.DCinuse then
               let sc := s.curSpeedCode
               let q := setDCSignal cfg s 128
               ({ q.1 with curSpeedCode := sc }, q.2)
             else (s, [])
    ({ p.1 with powerMode := mode }, e1 :: p.2)

/-- MotorDriver::checkPowerOverload. `elapsed` stands for the uint32
difference `millis() - lastSampleTaken`; the call is a no-op while it is
below sampleDelay. `adc` and `faultLow` are the hardware inputs consumed
via getCurrentRaw on the ON path. -/
def checkPowerOverload (cfg : MDConfig) (s : MDState) (useProgLimit : Bool)
    (elapsed : Nat) (adc : Int) (faultLow : Bool) : MDState × List Event :=
  if elapsed < s.sampleDelay then (s, [])
  else
    let tripValue := if useProgLimit then cfg.progTripValue else cfg.rawCurrentTripValue
    match s.powerMode with
    | POWERMODE.OFF => ({ s with sampleDelay := cfg.sampleOffWait }, [])
    | POWERMODE.ON =>
      let lc := getCurrentRaw cfg POWERMODE.ON adc faultLow
      let s := { s with lastCurrent := lc }
      let r :=
        if s.lastCurrent < 0 then
          let s := { s with lastCurrent := -s.lastCurrent }
          let p := setPower cfg s POWERMODE.OVERLOAD
          if cfg.commonFaultPin then
            if p.1.lastCurrent < tripValue then
              let q := setPower cfg p.1 POWERMODE.ON
              (q.1, p.2 ++ q.2)
            else p
          else
            if p.1.lastCurrent < tripValue then
              ({ p.1 with lastCurrent := tripValue }, p.2)
            else p
        else (s, ([] : List Event))
      let s1 := r.1
      if s1.lastCurrent < tripValue then
        if s1.power_good_counter < 100 then
          ({ s1 with sampleDelay := cfg.sampleOnWait,
                     power_good_counter := s1.power_good_counter + 1 }, r.2)
        else
          let w := if s1.power_sample_overload_wait > cfg.overloadWaitFloor
                   then cfg.overloadWaitFloor
                   else s1.power_sample_overload_wait
          ({ s1 with sampleDelay := cfg.sampleOnWait,
                     power_sample_overload_wait := w }, r.2)
      else
        let p := setPower cfg s1 POWERMODE.OVERLOAD
        let s2 : MDState :=
          { p.1 with
            power_good_counter := 0
            sampleDelay := p.1.power_sample_overload_wait }
        let w := if s2.power_sample_overload_wait ≥ 10000 then 10000
                 else 2 * s2.power_sample_overload_wait
        ({ s2 with power_sample_overload_wait := w }, r.2 ++ p.2)
    | POWERMODE.OVERLOAD =>
      let p := setPower cfg s POWERMODE.ON
      ({ p.1 with sampleDelay := cfg.sampleOnWait }, p.2)

/-- One effective (non-rate-limited) checkPowerOverload call on the main
track limit: elapsed time exactly meets the current sampleDelay gate. -/
def checkStep (cfg : MDConfig) (s : MDState) (adc : Int) (faultLow : Bool) :
    MDState :=
  (checkPowerOverload cfg s false s.sampleDelay adc faultLow).1

/-- The sampleDelay values assigned across `n` successive overload trips:
each cycle is one effective tripping check (fault pin quiet) followed by
one effective check in the resulting OVERLOAD state (which restores ON),
as in the real alternating trace; `adc` streams the ADC reading of the
k-th tripping check. -/
def tripDelays (cfg : MDConfig) (adc : Nat → Int) :
    MDState → Nat → List Nat
  | _, 0 => []
  | s, n + 1 =>
    let s1 := checkStep cfg s (adc 0) false
    let s2 := checkStep cfg s1 (adc 0) false
    s1.sampleDelay :: tripDelays cfg (fun k => adc (k + 1)) s2 n

/-- The update the overload branch applies to
power_sample_overload_wait after assigning it: cap at 10000 only when it
has already reached 10000, else double. -/
def stepW (w : Nat) : Nat := if 10000 ≤ w then 10000 else 2 * w

/-- The backoff recurrence actually implemented by the overload branch:
the delay assigned at the first trip is the current wait `F`, and the
wait stored for the next trip is stepW of it. -/
def backoffSeq (F : Nat) : Nat → Nat
  | 0 => F
  | n + 1 => stepW (backoffSeq F n)

/-- `n` consecutive effective healthy checks with a fixed ADC reading and
a quiet fault pin. -/
def healthyRun (cfg : MDConfig) (adc : Int) : MDState → Nat → MDState
  | s, 0 => s
  | s, n + 1 => healthyRun cfg adc (checkStep cfg s adc false) n

/-- A concrete channel configuration used by the witnesses: current and
fault sensing configured, non-inverted power, dedicated fault pin. -/
def cfgA : MDConfig :=
  { hasCurrentPin := true, hasFaultPin := true, senseOffset := 10,
    invertPower := false, commonFaultPin := false,
    rawCurrentTripValue := 100, progTripValue := 50, sampleOffWait := 9,
    sampleOnWait := 7, overloadWaitFloor := 20, isProgTrack := false }

/-- A concrete powered-on DC-mode state used by the witnesses. -/
def stA : MDState :=
  { powerMode := POWERMODE.ON, sampleDelay := 3, power_good_counter := 0,
    power_sample_overload_wait := 20, lastCurrent := 0,
    curSpeedCode := 6, DCinuse := true }

/-- C3: getCurrentRaw returns 0 whenever no current-sense pin is
configured, regardless of fault-pin state or power mode; otherwise, with
magnitude = |rawSample - senseOffset|, it returns the magnitude, except
that when a fault pin is configured, reads active, and the power mode is
ON it returns the negated magnitude, a magnitude of exactly 0 being
reported as -1. -/
theorem getCurrentRaw_contract (cfg : MDConfig) (pm : POWERMODE) (adc : Int)
    (faultLow : Bool) :
    (cfg.hasCurrentPin = false → getCurrentRaw cfg pm adc faultLow = 0) ∧
    (cfg.hasCurrentPin = true →
      getCurrentRaw cfg pm adc faultLow =
        if cfg.hasFaultPin = true ∧ faultLow = true ∧ pm = POWERMODE.ON then
          (if |adc - cfg.senseOffset| = 0 then -1 else -|adc - cfg.senseOffset|)
        else |adc - cfg.senseOffset|) := by
  have habs : (if adc - cfg.senseOffset < 0 then 0 - (adc - cfg.senseOffset)
      else adc - cfg.senseOffset) = |adc - cfg.senseOffset| := by
    rcases lt_or_le (adc - cfg.senseOffset) 0 with h | h
    · simp [h, abs_of_neg h]
    · simp [not_lt.mpr h, abs_of_nonneg h]
  constructor
  · intro h
    simp [getCurrentRaw, h]
  · intro h
    simp only [getCurrentRaw, h]
    simp only [habs]
    rfl

/-- C3 witness: concrete evaluation of the contract. -/
theorem getCurrentRaw_contract_witness :
    getCurrentRaw cfgA POWERMODE.ON 3 true =
      if cfgA.hasFaultPin = true ∧ (true : Bool) = true ∧
          POWERMODE.ON = POWERMODE.ON then
        (if |(3 : Int) - cfgA.senseOffset| = 0 then -1
         else -|(3 : Int) - cfgA.senseOffset|)
      else |(3 : Int) - cfgA.senseOffset| :=
  (getCurrentRaw_contract cfgA POWERMODE.ON 3 true).2 rfl

/-- C4: the constructed raw trip threshold is mA2raw(trip_milliamps),
clamped to ADCmax - senseOffset exactly when mA2raw(trip_milliamps) +
senseOffset exceeds ADCmax; hence the stored threshold plus senseOffset
never exceeds ADCmax. -/
theorem constructedTripValue_clamp (S f : Nat) (off adcMax : Int) (trip : Nat) :
    ((mA2raw S f trip : Int) + off > adcMax →
        constructedTripValue S f off adcMax trip = adcMax - off) ∧
    (¬ (mA2raw S f trip : Int) + off > adcMax →
        constructedTripValue S f off adcMax trip = (mA2raw S f trip : Int)) ∧
    constructedTripValue S f off adcMax trip + off ≤ adcMax := by
  simp only [constructedTripValue]
  split
  · refine ⟨fun _ => rfl, fun h => absurd (by assumption) h, by omega⟩
  · refine ⟨fun h => absurd h (by assumption), fun _ => rfl, by omega⟩

/-- C4 witness: with mA2raw(trip) = 1000*2/1 = 2000, offset 100 and
ADCmax 1023 the threshold is clamped to 923, and 923 + 100 ≤ 1023. -/
theorem constructedTripValue_clamp_witness :
    ((mA2raw 2 1 1000 : Int) + 100 > 1023 →
        constructedTripValue 2 1 100 1023 1000 = 1023 - 100) ∧
    (¬ (mA2raw 2 1 1000 : Int) + 100 > 1023 →
        constructedTripValue 2 1 100 1023 1000 = (mA2raw 2 1 1000 : Int)) ∧
    constructedTripValue 2 1 100 1023 1000 + 100 ≤ 1023 :=
  constructedTripValue_clamp 2 1 100 1023 1000

/-- Arithmetic helper: sandwiching a value through the two truncating
divisions loses at most f/S + 1. -/
theorem div_round_aux (S f x r : Nat) (hS : 0 < S)
    (h1 : r * f ≤ x * S) (h2 : x * S < r * f + f) :
    r * f / S ≤ x ∧ x ≤ r * f / S + f / S + 1 := by
  have hd := Nat.div_add_mod (r * f) S
  have hm : (r * f) % S < S := Nat.mod_lt _ hS
  have hf2 := Nat.div_add_mod f S
  have hm2 : f % S < S := Nat.mod_lt _ hS
  constructor
  · refine Nat.le_of_mul_le_mul_left ?_ hS
    calc S * (r * f / S) ≤ r * f := by omega
      _ ≤ x * S := h1
      _ = S * x := Nat.mul_comm x S
  · by_contra hcon
    push_neg at hcon
    have hxS : S * (r * f / S + f / S + 2) ≤ S * x :=
      Nat.mul_le_mul_left S (by omega)
    have hexp : S * (r * f / S + f / S + 2) =
        S * (r * f / S) + S * (f / S) + 2 * S := by ring
    have hxS2 : x * S = S * x := Nat.mul_comm x S
    omega

/-- C8: the raw2mA/mA2raw round trip never overshoots and undershoots by
at most the truncation error of the two integer divisions: for x with
the 32-bit intermediate product in range, raw2mA(mA2raw(x)) ≤ x and
x ≤ raw2mA(mA2raw(x)) + f/S + 1 where S is senseScale and f is
senseFactorInternal. -/
theorem raw2mA_mA2raw_roundtrip (S f x : Nat) (hS : 0 < S) (hf : 0 < f)
    (_h32 : x * S < 2 ^ 31) :
    raw2mA S f (mA2raw S f x) ≤ x ∧
    x ≤ raw2mA S f (mA2raw S f x) + f / S + 1 := by
  have h1 : (x * S / f) * f ≤ x * S := Nat.div_mul_le_self (x * S) f
  have h2 : x * S < (x * S / f) * f + f := by
    have hd := Nat.div_add_mod (x * S) f
    have hm : (x * S) % f < f := Nat.mod_lt _ hf
    have hc : f * (x * S / f) = (x * S / f) * f := Nat.mul_comm _ _
    omega
  have h := div_round_aux S f x (x * S / f) hS h1 h2
  simpa [raw2mA, mA2raw] using h

/-- C8 witness: S = 1000, f = 488, x = 1000 gives mA2raw = 2049,
raw2mA back = 999, within the stated tolerance. -/
theorem raw2mA_mA2raw_roundtrip_witness :
    raw2mA 1000 488 (mA2raw 1000 488 1000) ≤ 1000 ∧
    1000 ≤ raw2mA 1000 488 (mA2raw 1000 488 1000) + 488 / 1000 + 1 :=
  raw2mA_mA2raw_roundtrip 1000 488 1000 (by decide) (by decide) (by decide)

/-- C6: for every speed code with 7-bit speed field s, setDCSignal sends
PWM duty 0 when s ≤ 1, 255 when s = 127 (the only s ≥ 127 a 7-bit field
admits), and 2·s when 2 ≤ s ≤ 126; with inverted power polarity the duty
actually sent is 255 minus that value in every case. -/
theorem setDCSignal_duty (cfg : MDConfig) (st : MDState) (code : Nat) :
    (code % 128 ≤ 1 →
      (setDCSignal cfg st code).2 =
        [Event.pwm (if cfg.invertPower then 255 - 0 else 0),
         Event.signal (code / 128 % 2)]) ∧
    (code % 128 = 127 →
      (setDCSignal cfg st code).2 =
        [Event.pwm (if cfg.invertPower then 255 - 255 else 255),
         Event.signal (code / 128 % 2)]) ∧
    (2 ≤ code % 128 → code % 128 ≤ 126 →
      (setDCSignal cfg st code).2 =
        [Event.pwm (if cfg.invertPower then 255 - 2 * (code % 128)
                    else 2 * (code % 128)),
         Event.signal (code / 128 % 2)]) := by
  refine ⟨fun h1 => ?_, fun h2 => ?_, fun h3 h4 => ?_⟩
  · simp only [setDCSignal, if_pos h1]
  · simp only [setDCSignal, h2]
    norm_num
  · simp only [setDCSignal, if_neg (by omega : ¬ code % 128 ≤ 1),
      if_neg (by omega : ¬ code % 128 ≥ 127)]

/-- C6 witness: speed code 130 (speed field 2, direction bit set) with
non-inverted polarity yields duty 4. -/
theorem setDCSignal_duty_witness :
    2 ≤ 130 % 128 ∧ 130 % 128 ≤ 126 ∧
    (setDCSignal cfgA stA 130).2 =
      [Event.pwm (if cfgA.invertPower then 255 - 2 * (130 % 128)
                  else 2 * (130 % 128)),
       Event.signal (130 / 128 % 2)] :=
  ⟨by decide, by decide,
   (setDCSignal_duty cfgA stA 130).2.2 (by decide) (by decide)⟩

/-- C10: setPower always exits with the stored powerMode equal to the
requested mode, and for any mode other than ON (OVERLOAD included) the
first hardware write drives the power-enable pin to its inactive level,
honouring the polarity-inversion flag. -/
theorem setPower_mode_and_pin (cfg : MDConfig) (s : MDState) (mode : POWERMODE) :
    (setPower cfg s mode).1.powerMode = mode ∧
    (mode ≠ POWERMODE.ON →
      (setPower cfg s mode).2.head? =
        some (Event.powerPin (if cfg.invertPower then Level.HIGH else Level.LOW))) := by
  by_cases h : mode = POWERMODE.ON
  · subst h
    simp [setPower]
  · simp [setPower, h]

/-- C10 witness: a transition to OVERLOAD stores OVERLOAD and writes the
inactive (non-inverted: LOW) level first. -/
theorem setPower_mode_and_pin_witness :
    (setPower cfgA stA POWERMODE.OVERLOAD).1.powerMode = POWERMODE.OVERLOAD ∧
    (POWERMODE.OVERLOAD ≠ POWERMODE.ON →
      (setPower cfgA stA POWERMODE.OVERLOAD).2.head? =
        some (Event.powerPin
          (if cfgA.invertPower then Level.HIGH else Level.LOW))) :=
  setPower_mode_and_pin cfgA stA POWERMODE.OVERLOAD

/-- C7: with DC in use, setPower(ON) re-issues exactly the DC duty and
direction events of the stored speed code (a resume, not a
start-from-stop), and setPower(OFF) issues the physically stopped duty
(speed code 128: duty 0, or 255 under inverted polarity) while leaving
the stored speed code unchanged at exit. -/
theorem setPower_dc_resume_and_stop (cfg : MDConfig) (s : MDState)
    (hdc : s.DCinuse = true) :
    ((setPower cfg s POWERMODE.ON).1.curSpeedCode = s.curSpeedCode ∧
     ∀ e ∈ (setDCSignal cfg s s.curSpeedCode).2,
       e ∈ (setPower cfg s POWERMODE.ON).2) ∧
    ((setPower cfg s POWERMODE.OFF).1.curSpeedCode = s.curSpeedCode ∧
     Event.pwm (if cfg.invertPower then 255 - 0 else 0) ∈
       (setPower cfg s POWERMODE.OFF).2) := by
  refine ⟨⟨?_, ?_⟩, ?_, ?_⟩
  · simp [setPower, hdc, setDCSignal]
  · intro e he
    by_cases hp : cfg.isProgTrack
    · simp only [setPower, if_pos rfl, hdc, if_true, hp, List.mem_cons,
        List.mem_append]
      right; left; exact he
    · simp only [setPower, if_pos rfl, hdc, if_true, hp, if_false,
        List.mem_cons]
      right; exact he
  · simp [setPower, hdc, setDCSignal]
  · simp [setPower, hdc, setDCSignal]

/-- C7 witness: concrete resume/stop behaviour at speed code 6. -/
theorem setPower_dc_resume_and_stop_witness :
    ((setPower cfgA stA POWERMODE.ON).1.curSpeedCode = stA.curSpeedCode ∧
     ∀ e ∈ (setDCSignal cfgA stA stA.curSpeedCode).2,
       e ∈ (setPower cfgA stA POWERMODE.ON).2) ∧
    ((setPower cfgA stA POWERMODE.OFF).1.curSpeedCode = stA.curSpeedCode ∧
     Event.pwm (if cfgA.invertPower then 255 - 0 else 0) ∈
       (setPower cfgA stA POWERMODE.OFF).2) :=
  setPower_dc_resume_and_stop cfgA stA rfl

/-- C9: whenever the power mode is OVERLOAD, any non-rate-limited
checkPowerOverload call restores the power mode to ON and sets
sampleDelay to the fixed recovery-probe interval POWER_SAMPLE_ON_WAIT;
OVERLOAD is never a resting state across effective checks. -/
theorem checkPowerOverload_overload_transient (cfg : MDConfig) (s : MDState)
    (useProg : Bool) (elapsed : Nat) (adc : Int) (faultLow : Bool)
    (hmode : s.powerMode = POWERMODE.OVERLOAD) (hel : s.sampleDelay ≤ elapsed) :
    (checkPowerOverload cfg s useProg elapsed adc faultLow).1.powerMode =
      POWERMODE.ON ∧
    (checkPowerOverload cfg s useProg elapsed adc faultLow).1.sampleDelay =
      cfg.sampleOnWait := by
  simp only [checkPowerOverload, if_neg (Nat.not_lt.mpr hel), hmode]
  simp [setPower]

/-- C9 witness: a concrete OVERLOAD state is restored to ON with the
recovery-probe delay. -/
theorem checkPowerOverload_overload_transient_witness :
    (checkPowerOverload cfgA { stA with powerMode := POWERMODE.OVERLOAD }
      false 5 0 false).1.powerMode = POWERMODE.ON ∧
    (checkPowerOverload cfgA { stA with powerMode := POWERMODE.OVERLOAD }
      false 5 0 false).1.sampleDelay = cfgA.sampleOnWait :=
  checkPowerOverload_overload_transient cfgA
    { stA with powerMode := POWERMODE.OVERLOAD } false 5 0 false rfl
    (by decide)

/-- setPower stores the requested mode. -/
theorem setPower_powerMode (cfg : MDConfig) (s : MDState) (mode : POWERMODE) :
    (setPower cfg s mode).1.powerMode = mode := by
  by_cases hm : mode = POWERMODE.ON <;>
    by_cases hd : s.DCinuse <;> simp [setPower, setDCSignal, hm, hd]

/-- setPower leaves lastCurrent untouched. -/
theorem setPower_lastCurrent (cfg : MDConfig) (s : MDState) (mode : POWERMODE) :
    (setPower cfg s mode).1.lastCurrent = s.lastCurrent := by
  by_cases hm : mode = POWERMODE.ON <;>
    by_cases hd : s.DCinuse <;> simp [setPower, setDCSignal, hm, hd]

/-- setPower leaves the overload backoff untouched. -/
theorem setPower_wait (cfg : MDConfig) (s : MDState) (mode : POWERMODE) :
    (setPower cfg s mode).1.power_sample_overload_wait =
      s.power_sample_overload_wait := by
  by_cases hm : mode = POWERMODE.ON <;>
    by_cases hd : s.DCinuse <;> simp [setPower, setDCSignal, hm, hd]

/-- setPower leaves the good-sample counter untouched. -/
theorem setPower_counter (cfg : MDConfig) (s : MDState) (mode : POWERMODE) :
    (setPower cfg s mode).1.power_good_counter = s.power_good_counter := by
  by_cases hm : mode = POWERMODE.ON <;>
    by_cases hd : s.DCinuse <;> simp [setPower, setDCSignal, hm, hd]

/-- setPower leaves sampleDelay untouched. -/
theorem setPower_sampleDelay (cfg : MDConfig) (s : MDState) (mode : POWERMODE) :
    (setPower cfg s mode).1.sampleDelay = s.sampleDelay := by
  by_cases hm : mode = POWERMODE.ON <;>
    by_cases hd : s.DCinuse <;> simp [setPower, setDCSignal, hm, hd]

/-- setPower leaves the stored speed code untouched. -/
theorem setPower_curSpeedCode (cfg : MDConfig) (s : MDState) (mode : POWERMODE) :
    (setPower cfg s mode).1.curSpeedCode = s.curSpeedCode := by
  by_cases hm : mode = POWERMODE.ON <;>
    by_cases hd : s.DCinuse <;> simp [setPower, setDCSignal, hm, hd]

/-- setPower leaves the DC-in-use flag untouched. -/
theorem setPower_DCinuse (cfg : MDConfig) (s : MDState) (mode : POWERMODE) :
    (setPower cfg s mode).1.DCinuse = s.DCinuse := by
  by_cases hm : mode = POWERMODE.ON <;>
    by_cases hd : s.DCinuse <;> simp [setPower, setDCSignal, hm, hd]

/-- With the fault pin quiet, getCurrentRaw is the plain magnitude. -/
theorem getCurrentRaw_nofault (cfg : MDConfig) (pm : POWERMODE) (adc : Int)
    (hcur : cfg.hasCurrentPin = true) :
    getCurrentRaw cfg pm adc false = |adc - cfg.senseOffset| := by
  simp only [getCurrentRaw, hcur]
  rcases lt_or_le (adc - cfg.senseOffset) 0 with h | h
  · simp [h, abs_of_neg h]
  · simp [not_lt.mpr h, abs_of_nonneg h]

/-- With the fault pin active while powered ON, getCurrentRaw encodes the
fault as the negated magnitude floored away from zero. -/
theorem getCurrentRaw_fault (cfg : MDConfig) (adc : Int)
    (hcur : cfg.hasCurrentPin = true) (hfp : cfg.hasFaultPin = true) :
    getCurrentRaw cfg POWERMODE.ON adc true =
      -(max |adc - cfg.senseOffset| 1) := by
  simp only [getCurrentRaw, hcur, hfp]
  have habs : (if adc - cfg.senseOffset < 0 then 0 - (adc - cfg.senseOffset)
      else adc - cfg.senseOffset) = |adc - cfg.senseOffset| := by
    rcases lt_or_le (adc - cfg.senseOffset) 0 with h | h
    · simp [h, abs_of_neg h]
    · simp [not_lt.mpr h, abs_of_nonneg h]
  simp only [habs]
  have hnn : 0 ≤ |adc - cfg.senseOffset| := abs_nonneg _
  by_cases h0 : |adc - cfg.senseOffset| = 0
  · simp [h0]
  · have h1 : 1 ≤ |adc - cfg.senseOffset| := by omega
    simp only [if_neg h0]
    simp [max_eq_left h1]


/-- A shared-fault-line configuration whose raw trip threshold is 1,
exposing the -1 zero-magnitude sentinel of getCurrentRaw. -/
def cfgShared1 : MDConfig :=
  { hasCurrentPin := true, hasFaultPin := true, senseOffset := 0,
    invertPower := false, commonFaultPin := true,
    rawCurrentTripValue := 1, progTripValue := 1, sampleOffWait := 9,
    sampleOnWait := 7, overloadWaitFloor := 100, isProgTrack := false }

/-- A powered-on state with no pending sample delay. -/
def stOn0 : MDState :=
  { powerMode := POWERMODE.ON, sampleDelay := 0, power_good_counter := 0,
    power_sample_overload_wait := 100, lastCurrent := 0,
    curSpeedCode := 0, DCinuse := false }

/-- C2 counterexample: with commonFaultPin = true, the fault pin active
and measured magnitude 0 — strictly below the trip threshold 1 — a
non-rate-limited checkPowerOverload leaves the power mode OVERLOAD, not
ON: the -1 sentinel for a zero magnitude compares as 1 against the
threshold, so the claimed restore-to-ON does not happen. -/
theorem checkPowerOverload_commonFault_cex :
    cfgShared1.commonFaultPin = true ∧ cfgShared1.hasFaultPin = true ∧
    cfgShared1.hasCurrentPin = true ∧
    stOn0.powerMode = POWERMODE.ON ∧ stOn0.sampleDelay ≤ 0 ∧
    |(0 : Int) - cfgShared1.senseOffset| < cfgShared1.rawCurrentTripValue ∧
    (checkPowerOverload cfgShared1 stOn0 false 0 0 true).1.powerMode =
      POWERMODE.OVERLOAD := by
  decide

/-- C2 (amended): in a single non-rate-limited checkPowerOverload call
with power ON, the fault pin configured and active, and the
fault-encoded magnitude max(|rawSample - senseOffset|, 1) below the trip
threshold (the sentinel makes a zero magnitude compare as 1): if
commonFaultPin is true the power mode is ON again at return, and if
commonFaultPin is false the power mode is OVERLOAD at return with the
reported magnitude floored to exactly the trip threshold. -/
theorem checkPowerOverload_faultPin_response (cfg : MDConfig) (s : MDState)
    (useProg : Bool) (elapsed : Nat) (adc : Int)
    (hmode : s.powerMode = POWERMODE.ON) (hel : s.sampleDelay ≤ elapsed)
    (hcur : cfg.hasCurrentPin = true) (hfp : cfg.hasFaultPin = true)
    (hmag : max |adc - cfg.senseOffset| 1 <
      (if useProg then cfg.progTripValue else cfg.rawCurrentTripValue)) :
    (cfg.commonFaultPin = true →
      (checkPowerOverload cfg s useProg elapsed adc true).1.powerMode =
        POWERMODE.ON) ∧
    (cfg.commonFaultPin = false →
      (checkPowerOverload cfg s useProg elapsed adc true).1.powerMode =
        POWERMODE.OVERLOAD ∧
      (checkPowerOverload cfg s useProg elapsed adc true).1.lastCurrent =
        (if useProg then cfg.progTripValue else cfg.rawCurrentTripValue)) := by
  have hm1 : (1 : Int) ≤ max |adc - cfg.senseOffset| 1 := le_max_right _ _
  simp only [checkPowerOverload, if_neg (Nat.not_lt.mpr hel), hmode]
  rw [getCurrentRaw_fault cfg adc hcur hfp]
  have hneg : -(max |adc - cfg.senseOffset| 1) < 0 := by omega
  simp only [if_pos hneg, neg_neg, setPower_lastCurrent]
  constructor
  · intro hcfp
    simp only [hcfp, if_true, if_pos hmag, setPower_lastCurrent,
      setPower_powerMode, setPower_counter]
    split <;> simp
  · intro hcfp
    simp only [hcfp, Bool.false_eq_true, if_false, if_pos hmag,
      setPower_lastCurrent]
    have hnl : ¬ ((if useProg then cfg.progTripValue
        else cfg.rawCurrentTripValue) <
        (if useProg then cfg.progTripValue else cfg.rawCurrentTripValue)) :=
      lt_irrefl _
    simp only [if_neg hnl]
    simp [setPower_powerMode, setPower_lastCurrent]

/-- C2 (amended) witness: fault active, magnitude 5, threshold 50,
dedicated fault pin — power ends OVERLOAD with lastCurrent = 50. -/
theorem checkPowerOverload_faultPin_response_witness :
    ((cfgA.commonFaultPin = true →
      (checkPowerOverload cfgA stA false 5 15 true).1.powerMode =
        POWERMODE.ON) ∧
    (cfgA.commonFaultPin = false →
      (checkPowerOverload cfgA stA false 5 15 true).1.powerMode =
        POWERMODE.OVERLOAD ∧
      (checkPowerOverload cfgA stA false 5 15 true).1.lastCurrent =
        (if false then cfgA.progTripValue else cfgA.rawCurrentTripValue))) :=
  checkPowerOverload_faultPin_response cfgA stA false 5 15 rfl (by decide)
    rfl rfl (by decide)

/-- An effective check in OVERLOAD restores ON, sets the recovery-probe
delay and leaves backoff, counter and speed code untouched. -/
theorem checkStep_restore (cfg : MDConfig) (s : MDState) (adc : Int)
    (faultLow : Bool) (hmode : s.powerMode = POWERMODE.OVERLOAD) :
    (checkStep cfg s adc faultLow).powerMode = POWERMODE.ON ∧
    (checkStep cfg s adc faultLow).sampleDelay = cfg.sampleOnWait ∧
    (checkStep cfg s adc faultLow).power_sample_overload_wait =
      s.power_sample_overload_wait ∧
    (checkStep cfg s adc faultLow).power_good_counter =
      s.power_good_counter := by
  simp only [checkStep, checkPowerOverload, if_neg (Nat.lt_irrefl _), hmode]
  simp [setPower_powerMode, setPower_wait, setPower_counter]

/-- An effective tripping check (fault pin quiet, magnitude at or above
the main trip threshold) from ON: forces OVERLOAD, assigns the current
backoff as sampleDelay, applies stepW to the stored backoff, and zeroes
the good-sample counter. -/
theorem checkStep_trip (cfg : MDConfig) (s : MDState) (adc : Int)
    (hmode : s.powerMode = POWERMODE.ON) (hcur : cfg.hasCurrentPin = true)
    (htrip : cfg.rawCurrentTripValue ≤ |adc - cfg.senseOffset|) :
    (checkStep cfg s adc false).powerMode = POWERMODE.OVERLOAD ∧
    (checkStep cfg s adc false).sampleDelay = s.power_sample_overload_wait ∧
    (checkStep cfg s adc false).power_sample_overload_wait =
      stepW s.power_sample_overload_wait ∧
    (checkStep cfg s adc false).power_good_counter = 0 := by
  have hg := getCurrentRaw_nofault cfg POWERMODE.ON adc hcur
  have hnn : ¬ |adc - cfg.senseOffset| < 0 := not_lt.mpr (abs_nonneg _)
  have hnl : ¬ |adc - cfg.senseOffset| < cfg.rawCurrentTripValue :=
    not_lt.mpr htrip
  simp [checkStep, checkPowerOverload, Nat.lt_irrefl, hmode, hg, hnn, hnl,
    stepW, setPower_powerMode, setPower_wait, setPower_counter,
    setPower_sampleDelay]

/-- Shifting the backoff recurrence by one trip. -/
theorem backoffSeq_shift (F n : Nat) :
    backoffSeq F (n + 1) = backoffSeq (stepW F) n := by
  induction n with
  | zero => rfl
  | succ n ih =>
    show stepW (backoffSeq F (n + 1)) = stepW (backoffSeq (stepW F) n)
    rw [ih]

/-- The backoff recurrence never exceeds max F 19998. -/
theorem backoffSeq_le (F n : Nat) : backoffSeq F n ≤ max F 19998 := by
  induction n with
  | zero => exact le_max_left _ _
  | succ n ih =>
    simp only [backoffSeq, stepW]
    split
    · exact le_trans (by omega) (le_max_right F 19998)
    · refine le_trans ?_ (le_max_right F 19998)
      omega

/-- The trip-cycle delays follow the backoff recurrence from the initial
stored wait. -/
theorem tripDelays_eq (cfg : MDConfig) (adc : Nat → Int) (s : MDState)
    (n : Nat) (hmode : s.powerMode = POWERMODE.ON)
    (hcur : cfg.hasCurrentPin = true)
    (htrip : ∀ k, cfg.rawCurrentTripValue ≤ |adc k - cfg.senseOffset|) :
    tripDelays cfg adc s n =
      (List.range n).map (backoffSeq s.power_sample_overload_wait) := by
  induction n generalizing s adc with
  | zero => simp [tripDelays]
  | succ n ih =>
    obtain ⟨ht1, ht2, ht3, _⟩ := checkStep_trip cfg s (adc 0) hmode hcur (htrip 0)
    obtain ⟨hr1, _, hr2, _⟩ :=
      checkStep_restore cfg (checkStep cfg s (adc 0) false) (adc 0) false ht1
    have hIH := ih (fun k => adc (k + 1))
      (checkStep cfg (checkStep cfg s (adc 0) false) (adc 0) false)
      hr1 (fun k => htrip (k + 1))
    simp only [tripDelays, ht2, hIH, hr2, ht3]
    rw [List.range_succ_eq_map]
    simp only [List.map_cons, List.map_map]
    have hsh : ∀ k, (backoffSeq s.power_sample_overload_wait ∘ Nat.succ) k =
        backoffSeq (stepW s.power_sample_overload_wait) k := by
      intro k
      simp only [Function.comp]
      exact backoffSeq_shift _ k
    simp only [backoffSeq]
    exact congrArg _ (List.map_congr_left (fun k _ => (hsh k).symm))

/-- Configuration for the C1 counterexample: trip threshold 1, backoff
floor 3000. -/
def cfgTrip : MDConfig :=
  { hasCurrentPin := true, hasFaultPin := false, senseOffset := 0,
    invertPower := false, commonFaultPin := false,
    rawCurrentTripValue := 1, progTripValue := 1, sampleOffWait := 9,
    sampleOnWait := 7, overloadWaitFloor := 3000, isProgTrack := false }

/-- State for the C1 counterexample: powered ON, backoff at its floor
of 3000 ms. -/
def stTrip : MDState :=
  { powerMode := POWERMODE.ON, sampleDelay := 0, power_good_counter := 0,
    power_sample_overload_wait := 3000, lastCurrent := 0,
    curSpeedCode := 0, DCinuse := false }

/-- C1 counterexample: three consecutive overload trips starting at a
floor of 3000 ms assign delays 3000, 6000, 12000 — the third exceeds the
10000 ms ceiling (the claim predicts min(4F, C) = 10000) and the next
delay, 10000, makes the sequence non-monotone. -/
theorem tripDelays_cex :
    stTrip.power_sample_overload_wait = cfgTrip.overloadWaitFloor ∧
    stTrip.powerMode = POWERMODE.ON ∧
    cfgTrip.rawCurrentTripValue ≤ |(5 : Int) - cfgTrip.senseOffset| ∧
    tripDelays cfgTrip (fun _ => 5) stTrip 4 = [3000, 6000, 12000, 10000] ∧
    ¬ 12000 ≤ 10000 := by
  refine ⟨rfl, rfl, by decide, ?_, by decide⟩
  decide

/-- C1 (amended): across consecutive overload trips starting with the
per-channel backoff at F, the assigned sampleDelay values are
backoffSeq F: F, 2F, 4F, … with the cap applied only after a value has
already reached 10000, so each delay is at most max F 19998, a delay
below 10000 is followed by its double, and a delay at or above 10000 is
followed by exactly 10000 (the value may exceed the 10000 ceiling once,
immediately before settling at the ceiling). -/
theorem tripDelays_backoff (cfg : MDConfig) (adc : Nat → Int) (s : MDState)
    (n : Nat) (hmode : s.powerMode = POWERMODE.ON)
    (hcur : cfg.hasCurrentPin = true)
    (htrip : ∀ k, cfg.rawCurrentTripValue ≤ |adc k - cfg.senseOffset|) :
    tripDelays cfg adc s n =
      (List.range n).map (backoffSeq s.power_sample_overload_wait) ∧
    (∀ k, backoffSeq s.power_sample_overload_wait k ≤
      max s.power_sample_overload_wait 19998) ∧
    (∀ k, backoffSeq s.power_sample_overload_wait k < 10000 →
      backoffSeq s.power_sample_overload_wait (k + 1) =
        2 * backoffSeq s.power_sample_overload_wait k) ∧
    (∀ k, 10000 ≤ backoffSeq s.power_sample_overload_wait k →
      backoffSeq s.power_sample_overload_wait (k + 1) = 10000) := by
  refine ⟨tripDelays_eq cfg adc s n hmode hcur htrip,
    fun k => backoffSeq_le _ k, fun k h => ?_, fun k h => ?_⟩
  · simp only [backoffSeq, stepW, if_neg (not_le.mpr h)]
  · simp only [backoffSeq, stepW, if_pos h]

/-- C1 (amended) witness: two trips at floor 3000 give delays
[3000, 6000]. -/
theorem tripDelays_backoff_witness :
    tripDelays cfgTrip (fun _ => (5 : Int)) stTrip 2 =
      (List.range 2).map (backoffSeq stTrip.power_sample_overload_wait) ∧
    (∀ k, backoffSeq stTrip.power_sample_overload_wait k ≤
      max stTrip.power_sample_overload_wait 19998) ∧
    (∀ k, backoffSeq stTrip.power_sample_overload_wait k < 10000 →
      backoffSeq stTrip.power_sample_overload_wait (k + 1) =
        2 * backoffSeq stTrip.power_sample_overload_wait k) ∧
    (∀ k, 10000 ≤ backoffSeq stTrip.power_sample_overload_wait k →
      backoffSeq stTrip.power_sample_overload_wait (k + 1) = 10000) :=
  tripDelays_backoff cfgTrip (fun _ => 5) stTrip 2 rfl rfl
    (fun _ => (by decide :
      cfgTrip.rawCurrentTripValue ≤ |(5 : Int) - cfgTrip.senseOffset|))

/-- An effective healthy check (fault pin quiet, magnitude below the
main trip threshold) from ON, with the good-sample counter below 100:
stays ON, increments the counter and leaves the backoff untouched. -/
theorem checkStep_healthy_low (cfg : MDConfig) (s : MDState) (adc : Int)
    (hmode : s.powerMode = POWERMODE.ON) (hcur : cfg.hasCurrentPin = true)
    (hok : |adc - cfg.senseOffset| < cfg.rawCurrentTripValue)
    (hcount : s.power_good_counter < 100) :
    (checkStep cfg s adc false).powerMode = POWERMODE.ON ∧
    (checkStep cfg s adc false).power_good_counter =
      s.power_good_counter + 1 ∧
    (checkStep cfg s adc false).power_sample_overload_wait =
      s.power_sample_overload_wait := by
  have hg := getCurrentRaw_nofault cfg POWERMODE.ON adc hcur
  have hnn : ¬ |adc - cfg.senseOffset| < 0 := not_lt.mpr (abs_nonneg _)
  simp [checkStep, checkPowerOverload, Nat.lt_irrefl, hmode, hg, hnn, hok,
    hcount]

/-- An effective healthy check from ON with the good-sample counter
already at its ceiling: stays ON, keeps the counter, and clamps the
backoff down to the floor whenever it sits above it. -/
theorem checkStep_healthy_high (cfg : MDConfig) (s : MDState) (adc : Int)
    (hmode : s.powerMode = POWERMODE.ON) (hcur : cfg.hasCurrentPin = true)
    (hok : |adc - cfg.senseOffset| < cfg.rawCurrentTripValue)
    (hcount : ¬ s.power_good_counter < 100) :
    (checkStep cfg s adc false).powerMode = POWERMODE.ON ∧
    (checkStep cfg s adc false).power_good_counter =
      s.power_good_counter ∧
    (checkStep cfg s adc false).power_sample_overload_wait =
      (if cfg.overloadWaitFloor < s.power_sample_overload_wait
       then cfg.overloadWaitFloor else s.power_sample_overload_wait) := by
  have hg := getCurrentRaw_nofault cfg POWERMODE.ON adc hcur
  have hnn : ¬ |adc - cfg.senseOffset| < 0 := not_lt.mpr (abs_nonneg _)
  simp [checkStep, checkPowerOverload, Nat.lt_irrefl, hmode, hg, hnn, hok,
    hcount]

/-- A healthy run splits into consecutive healthy runs. -/
theorem healthyRun_add (cfg : MDConfig) (adc : Int) (s : MDState)
    (a b : Nat) :
    healthyRun cfg adc s (a + b) =
      healthyRun cfg adc (healthyRun cfg adc s a) b := by
  induction a generalizing s with
  | zero => rw [Nat.zero_add]; simp [healthyRun]
  | succ a ih =>
    have hsucc : a + 1 + b = (a + b) + 1 := by omega
    rw [hsucc]
    show healthyRun cfg adc (checkStep cfg s adc false) (a + b) =
      healthyRun cfg adc (healthyRun cfg adc (checkStep cfg s adc false) a) b
    exact ih (checkStep cfg s adc false)

/-- While the counter has room, k healthy checks stay ON, add k to the
counter and keep the backoff. -/
theorem healthyRun_low (cfg : MDConfig) (adc : Int)
    (hcur : cfg.hasCurrentPin = true)
    (hok : |adc - cfg.senseOffset| < cfg.rawCurrentTripValue) :
    ∀ (k : Nat) (s : MDState), s.powerMode = POWERMODE.ON →
      s.power_good_counter + k ≤ 100 →
      (healthyRun cfg adc s k).powerMode = POWERMODE.ON ∧
      (healthyRun cfg adc s k).power_good_counter =
        s.power_good_counter + k ∧
      (healthyRun cfg adc s k).power_sample_overload_wait =
        s.power_sample_overload_wait := by
  intro k
  induction k with
  | zero => intro s hmode _; exact ⟨hmode, rfl, rfl⟩
  | succ k ih =>
    intro s hmode hcount
    obtain ⟨h1, h2, h3⟩ := checkStep_healthy_low cfg s adc hmode hcur hok
      (by omega)
    have hstep : healthyRun cfg adc s (k + 1) =
        healthyRun cfg adc (checkStep cfg s adc false) k := by
      rw [(by omega : k + 1 = 1 + k), healthyRun_add]
      rfl
    rw [hstep]
    obtain ⟨g1, g2, g3⟩ := ih (checkStep cfg s adc false) h1 (by omega)
    exact ⟨g1, by omega, by rw [g3, h3]⟩

/-- Once the counter is pinned at 100 and the backoff already sits at
the floor, healthy checks keep all three components fixed. -/
theorem healthyRun_pinned (cfg : MDConfig) (adc : Int)
    (hcur : cfg.hasCurrentPin = true)
    (hok : |adc - cfg.senseOffset| < cfg.rawCurrentTripValue) :
    ∀ (k : Nat) (s : MDState), s.powerMode = POWERMODE.ON →
      s.power_good_counter = 100 →
      s.power_sample_overload_wait = cfg.overloadWaitFloor →
      (healthyRun cfg adc s k).powerMode = POWERMODE.ON ∧
      (healthyRun cfg adc s k).power_good_counter = 100 ∧
      (healthyRun cfg adc s k).power_sample_overload_wait =
        cfg.overloadWaitFloor := by
  intro k
  induction k with
  | zero => intro s hmode hc hw; exact ⟨hmode, hc, hw⟩
  | succ k ih =>
    intro s hmode hc hw
    obtain ⟨h1, h2, h3⟩ := checkStep_healthy_high cfg s adc hmode hcur hok
      (by omega)
    have hstep : healthyRun cfg adc s (k + 1) =
        healthyRun cfg adc (checkStep cfg s adc false) k := by
      rw [(by omega : k + 1 = 1 + k), healthyRun_add]
      rfl
    rw [hstep]
    refine ih (checkStep cfg s adc false) h1 (by omega) ?_
    rw [h3, hw]
    simp

/-- After at least 101 healthy checks from a zeroed counter, the backoff
sits exactly at the floor (provided it started at or above it). -/
theorem healthyRun_relaxes (cfg : MDConfig) (adc : Int) (s : MDState)
    (n : Nat) (hmode : s.powerMode = POWERMODE.ON)
    (hc0 : s.power_good_counter = 0) (hcur : cfg.hasCurrentPin = true)
    (hfloor : cfg.overloadWaitFloor ≤ s.power_sample_overload_wait)
    (hok : |adc - cfg.senseOffset| < cfg.rawCurrentTripValue)
    (hn : 101 ≤ n) :
    (healthyRun cfg adc s n).powerMode = POWERMODE.ON ∧
    (healthyRun cfg adc s n).power_sample_overload_wait =
      cfg.overloadWaitFloor := by
  obtain ⟨m, hm⟩ : ∃ m, n = 100 + (1 + m) := ⟨n - 101, by omega⟩
  subst hm
  rw [healthyRun_add, healthyRun_add]
  obtain ⟨a1, a2, a3⟩ := healthyRun_low cfg adc hcur hok 100 s hmode
    (by omega)
  obtain ⟨b1, b2, b3⟩ := checkStep_healthy_high cfg
    (healthyRun cfg adc s 100) adc a1 hcur hok (by omega)
  have hone : healthyRun cfg adc (healthyRun cfg adc s 100) 1 =
      checkStep cfg (healthyRun cfg adc s 100) adc false := rfl
  rw [hone]
  have hw2 : (checkStep cfg (healthyRun cfg adc s 100) adc
      false).power_sample_overload_wait = cfg.overloadWaitFloor := by
    rw [b3, a3]
    rcases lt_or_le cfg.overloadWaitFloor s.power_sample_overload_wait
      with h | h
    · simp [h]
    · have heq : s.power_sample_overload_wait = cfg.overloadWaitFloor := by
        omega
      simp [heq]
  obtain ⟨c1, _, c3⟩ := healthyRun_pinned cfg adc hcur hok m
    (checkStep cfg (healthyRun cfg adc s 100) adc false) b1 (by omega) hw2
  exact ⟨c1, c3⟩

/-- Configuration for C5: trip threshold 10, backoff floor 1000. -/
def cfgHeal : MDConfig :=
  { hasCurrentPin := true, hasFaultPin := false, senseOffset := 0,
    invertPower := false, commonFaultPin := false,
    rawCurrentTripValue := 10, progTripValue := 10, sampleOffWait := 9,
    sampleOnWait := 7, overloadWaitFloor := 1000, isProgTrack := false }

/-- State for C5: powered ON, counter zero, backoff at its floor. -/
def stHeal : MDState :=
  { powerMode := POWERMODE.ON, sampleDelay := 0, power_good_counter := 0,
    power_sample_overload_wait := 1000, lastCurrent := 0,
    curSpeedCode := 0, DCinuse := false }

set_option maxRecDepth 20000 in
/-- C5 counterexample: an overload at the floor of 1000 ms escalates the
backoff to 2000 ms; after the restoring check and then exactly 100
consecutive healthy checks, the next overload trip is assigned a delay
of 2000 ms, not the floor — the clamp back to the floor only runs on the
101st healthy check. -/
theorem relax_after_100_cex :
    cfgHeal.overloadWaitFloor = 1000 ∧
    (checkStep cfgHeal
      (healthyRun cfgHeal 0
        (checkStep cfgHeal (checkStep cfgHeal stHeal 50 false) 50 false)
        100)
      50 false).sampleDelay = 2000 ∧
    ¬ (2000 : Nat) = 1000 := by
  refine ⟨rfl, ?_, by decide⟩
  decide

/-- C5 (amended): after an overload has escalated the backoff, once the
channel observes 101 consecutive healthy checks from a zeroed
good-sample counter (power ON, no fault indication, magnitude below
threshold), the delay assigned at the next overload trip equals the
floor value again, not the escalated carried-over value. -/
theorem relax_after_101 (cfg : MDConfig) (s : MDState) (adcH adcT : Int)
    (n : Nat) (hmode : s.powerMode = POWERMODE.ON)
    (hc0 : s.power_good_counter = 0) (hcur : cfg.hasCurrentPin = true)
    (hfloor : cfg.overloadWaitFloor ≤ s.power_sample_overload_wait)
    (hH : |adcH - cfg.senseOffset| < cfg.rawCurrentTripValue)
    (hT : cfg.rawCurrentTripValue ≤ |adcT - cfg.senseOffset|)
    (hn : 101 ≤ n) :
    (checkStep cfg (healthyRun cfg adcH s n) adcT false).sampleDelay =
      cfg.overloadWaitFloor := by
  obtain ⟨h1, h2⟩ := healthyRun_relaxes cfg adcH s n hmode hc0 hcur hfloor
    hH hn
  obtain ⟨_, t2, _, _⟩ := checkStep_trip cfg (healthyRun cfg adcH s n)
    adcT h1 hcur hT
  rw [t2, h2]

/-- C5 (amended) witness: 101 healthy checks at escalated backoff 2000
bring the next trip's delay back to the floor 1000. -/
theorem relax_after_101_witness :
    (checkStep cfgHeal
      (healthyRun cfgHeal 0
        { stHeal with power_sample_overload_wait := 2000 } 101)
      50 false).sampleDelay = cfgHeal.overloadWaitFloor :=
  relax_after_101 cfgHeal
    { stHeal with power_sample_overload_wait := 2000 } 0 50 101 rfl rfl rfl
    (by decide) (by decide) (by decide) (by decide)

end MotorDriver
